import Mathlib

/-!
Verification development for the plugin-creation orchestrator
(`PluginCreationService`): job state machine, five-phase iteration
pipeline, process-execution harness, name validation, path sandboxing
and rate limiting.  Definitions are shallow embeddings of the
TypeScript source; effectful phase bodies (subprocess runs, provider
calls) are abstracted as outcome oracles, while all control flow and
job-record mutation visible in the source is translated directly.
Timestamps (`Date.now()` / `new Date()`) are modelled as natural
numbers (milliseconds).
-/

namespace PluginCreation

/-! ## Basic string utilities

JS `String.prototype.includes` and `startsWith`, modelled on `List Char`
(the underlying character sequence of a string). -/

/-- `leadsWith pat l` is true when `pat` is an initial segment of `l`
(JS `startsWith`, generalised over the element type). -/
def leadsWith {α : Type} [DecidableEq α] : List α → List α → Bool
  | [], _ => true
  | _ :: _, [] => false
  | p :: ps, c :: cs => p = c && leadsWith ps cs

/-- `containsSubL l pat` is true when `pat` occurs contiguously inside `l`
(JS `includes`). -/
def containsSubL {α : Type} [DecidableEq α] : List α → List α → Bool
  | [], pat => pat.isEmpty
  | c :: rest, pat => leadsWith pat (c :: rest) || containsSubL rest pat

/-- JS `name.includes(pat)` on Lean strings. -/
def strHas (s pat : String) : Bool :=
  containsSubL s.data pat.data

example : strHas ("a../b") ("..") = true := by decide
example : strHas ("a/b") ("..") = false := by decide
example : leadsWith ("ab").data ("abc").data = true := by decide

/-! ## Plugin-name validation (source: `isValidPluginName`)

The source tests the regex `/^@?[a-zA-Z0-9-_]+\/[a-zA-Z0-9-_]+$/` and
additionally rejects names containing `..`, `./` or `\`.  The regex is
embedded as an explicit matcher: an optional leading `@`, one or more
name characters, a single `/`, one or more name characters. -/

/-- Character class `[a-zA-Z0-9-_]` of the name regex. -/
def isNameChar (c : Char) : Bool :=
  c.isAlphanum || c = '-' || c = '_'

/-- A nonempty run of name characters (the `[a-zA-Z0-9-_]+` parts). -/
def nameRun (cs : List Char) : Bool :=
  !cs.isEmpty && cs.all isNameChar

/-- Scope remainder: name characters up to a `/`, then a nonempty run of
name characters (nothing after it). -/
def matchRest : List Char → Bool
  | [] => false
  | c :: cs => if c = '/' then nameRun cs else isNameChar c && matchRest cs

/-- `[a-zA-Z0-9-_]+\/[a-zA-Z0-9-_]+` : nonempty scope part, slash,
nonempty name part. -/
def matchScope : List Char → Bool
  | [] => false
  | c :: cs => isNameChar c && matchRest cs

/-- Strip a single leading `@` (JS `replace(/^@/, '')`). -/
def stripAt (cs : List Char) : List Char :=
  match cs with
  | c :: rest => if c = '@' then rest else cs
  | [] => []

/-- The full regex `^@?[a-zA-Z0-9-_]+\/[a-zA-Z0-9-_]+$`. -/
def matchesPluginNamePattern (name : String) : Bool :=
  matchScope (stripAt name.data)

/-- Source `isValidPluginName`: regex match plus rejection of `..`,
`./` and `\`. -/
def isValidPluginName (name : String) : Bool :=
  matchesPluginNamePattern name
    && !(strHas name ("..")) && !(strHas name ("./")) && !(strHas name ("\\"))

example : isValidPluginName ("@scope/plugin-name") = true := by decide
example : isValidPluginName ("scope/plugin_2") = true := by decide
example : isValidPluginName ("../etc/passwd") = false := by decide
example : isValidPluginName ("noslash") = false := by decide
example : isValidPluginName ("a/b/c") = false := by decide
example : isValidPluginName ("@/b") = false := by decide

/-! ## Name sanitisation (source: `sanitizePluginName`)

`name.replace(/^@/, '').replace(/\//g, '-').toLowerCase()` — strip one
leading `@`, then apply per character: `/` becomes `-`, everything else
is lower-cased (the two remaining `replace`/`toLowerCase` passes act
pointwise and commute into a single map). -/

/-- Per-character effect of `replace(/\//g,'-')` followed by
`toLowerCase()`. -/
def sanitizeChar (c : Char) : Char :=
  if c = '/' then '-' else c.toLower

/-- Source `sanitizePluginName`. -/
def sanitizePluginName (name : String) : String :=
  String.mk ((stripAt name.data).map sanitizeChar)

example : sanitizePluginName ("@Scope/Plugin-Name") = "scope-plugin-name" := by decide

/-! ## Path model (source: `path.join` / `path.resolve` / `startsWith`)

Absolute paths are modelled as lists of segments.  `resolvePath`
normalises a segment list the way `path.resolve` does on an absolute
path: empty and `.` segments disappear, `..` pops the last kept
segment (never above the root).  `path.join(dataDir, 'plugins', jobId,
sanitizedName)` appends the three single segments to the data-root
segments; the sandbox check `resolvedPath.startsWith(dataDir)` becomes
a segment-prefix test. -/

/-- One `path.resolve` normalisation step. -/
def stepSeg (acc : List String) (seg : String) : List String :=
  if seg = "" ∨ seg = "." then acc
  else if seg = ".." then acc.dropLast
  else acc ++ [seg]

/-- Normalise an absolute segment list (`path.resolve`). -/
def resolvePath (segs : List String) : List String :=
  segs.foldl stepSeg []

example : resolvePath (["data", "plugins", "..", "x"]) = ["data", "x"] := by decide
example : resolvePath (["data", "..", "..", "x"]) = ["x"] := by decide

/-! ## Job data model (source: `PluginCreationJob`)

Fields not consulted by any verified operation (`result`,
`testResults`, `validationScore`, `childProcess`, `modelUsed`, and the
specification fields beyond the name) are omitted; `specification` is
represented by the artifact name, the only specification field the
orchestrator's control flow reads. -/

/-- Job lifecycle status. -/
inductive JobStatus where
  | pending
  | running
  | completed
  | failed
  | cancelled
deriving DecidableEq

/-- One record of the error ledger: `{iteration, phase, error, timestamp}`. -/
structure ErrorEntry where
  iteration : Nat
  phase : String
  error : String
  timestamp : Nat
deriving DecidableEq

/-- The job record. -/
structure PluginCreationJob where
  id : String
  specName : String
  status : JobStatus
  currentPhase : String
  progress : Nat
  logs : List String
  error : Option String
  outputPath : List String
  startedAt : Nat
  completedAt : Option Nat
  currentIteration : Nat
  maxIterations : Nat
  errors : List ErrorEntry
deriving DecidableEq

/-- A terminal status: `completed`, `failed` or `cancelled`. -/
def JobStatus.isTerminal : JobStatus → Bool
  | .completed => true
  | .failed => true
  | .cancelled => true
  | _ => false

/-- `logToJob` log line: `[<iso time>] <message>` with the ISO timestamp
abstracted to the numeric clock. -/
def logLine (now : Nat) (msg : String) : String :=
  "[" ++ toString now ++ "] " ++ msg

/-- The job record built by `createPlugin` (status `pending`, phase
`initializing`, iteration 0 of 5, empty logs and ledger). -/
def newJob (jobId specName : String) (outputPath : List String) (now : Nat) :
    PluginCreationJob :=
  { id := jobId
    specName := specName
    status := .pending
    currentPhase := "initializing"
    progress := 0
    logs := []
    error := none
    outputPath := outputPath
    startedAt := now
    completedAt := none
    currentIteration := 0
    maxIterations := 5
    errors := [] }

/-! ## Iteration pipeline (source: `runSingleIteration`, `runCreationProcess`)

Each phase body performs IO (subprocess runs, provider calls); its
outcome is supplied as an oracle.  `buildPlugin`, `lintPlugin`,
`testPlugin` and `validatePlugin` catch their own exceptions and
signal failure by returning `false` after writing the failure text to
`job.error`, so their oracle is success-or-failure-with-output.
`generatePluginCode` has no internal catch: it throws when no
generation provider is configured and may throw for provider/IO
failures; its oracle is success-or-raise.  The per-round `now`
abstracts the timestamps taken during that round. -/

/-- Outcome of the generate phase body (may raise). -/
inductive GenOutcome where
  | success
  | raises (msg : String)
deriving DecidableEq

/-- Outcome of a boolean phase body (build/lint/test/validate): succeed,
or fail after setting `job.error` to the captured output. -/
inductive PhaseOutcome where
  | success
  | failure (output : String)
deriving DecidableEq

/-- Oracles for one iteration round. -/
structure IterEnv where
  genOutcome : GenOutcome
  buildOutcome : PhaseOutcome
  lintOutcome : PhaseOutcome
  testOutcome : PhaseOutcome
  validateOutcome : PhaseOutcome
  now : Nat

/-- Source `generatePluginCode`: throws
`AI code generation not available without ANTHROPIC_API_KEY` when no
provider is configured, otherwise behaves as the provider interaction's
oracle says. -/
def generatePluginCode (hasAnthropic : Bool) (env : IterEnv) : Except String Unit :=
  if !hasAnthropic then
    .error ("AI code generation not available without ANTHROPIC_API_KEY")
  else
    match env.genOutcome with
    | .success => .ok ()
    | .raises msg => .error msg

/-- Source `validatePlugin`: with no provider configured it is a no-op
success (skip AI validation); otherwise the provider round-trip's
oracle decides. -/
def validatePlugin (hasAnthropic : Bool) (env : IterEnv) : PhaseOutcome :=
  if !hasAnthropic then .success else env.validateOutcome

/-- JS `job.error || default`: `undefined` and the empty string are
falsy, so both fall back to the default text. -/
def orDefault (e : Option String) (d : String) : String :=
  match e with
  | none => d
  | some s => if s = "" then d else s

/-- Ledger record appended on a failed phase:
`{iteration: job.currentIteration, phase, error: job.error || default, timestamp}`. -/
def phaseFailEntry (job : PluginCreationJob) (phase d : String) (now : Nat) :
    ErrorEntry :=
  { iteration := job.currentIteration
    phase := phase
    error := orDefault job.error d
    timestamp := now }

/-- Source `runSingleIteration`: run generate, build, lint, test,
validate in order, stopping at the first failure; a failed boolean
phase appends one ledger record; an exception escaping a phase is
caught here — it sets `job.error` and `job.completedAt`, appends a
ledger record carrying the active phase, logs, and returns `false`. -/
def runSingleIteration (hasAnthropic : Bool) (env : IterEnv)
    (job : PluginCreationJob) : Bool × PluginCreationJob :=
  let job := { job with currentPhase := "generating" }
  match generatePluginCode hasAnthropic env with
  | .error msg =>
    -- catch block of `runSingleIteration`
    let job := { job with error := some msg, completedAt := some env.now }
    let job := { job with errors := job.errors ++
      [({ iteration := job.currentIteration
          phase := job.currentPhase
          error := msg
          timestamp := env.now } : ErrorEntry)] }
    let job := { job with logs := job.logs ++
      [logLine env.now ("Error in iteration: " ++ msg)] }
    (false, job)
  | .ok _ =>
  let job := { job with currentPhase := "building" }
  match env.buildOutcome with
  | .failure out =>
    let job := { job with error := some out }
    (false, { job with errors := job.errors ++
      [phaseFailEntry job ("building") ("Build failed") env.now] })
  | .success =>
  let job := { job with currentPhase := "linting" }
  match env.lintOutcome with
  | .failure out =>
    let job := { job with error := some out }
    (false, { job with errors := job.errors ++
      [phaseFailEntry job ("linting") ("Lint failed") env.now] })
  | .success =>
  let job := { job with currentPhase := "testing" }
  match env.testOutcome with
  | .failure out =>
    let job := { job with error := some out }
    (false, { job with errors := job.errors ++
      [phaseFailEntry job ("testing") ("Tests failed") env.now] })
  | .success =>
  let job := { job with currentPhase := "validating" }
  match validatePlugin hasAnthropic env with
  | .failure out =>
    let job := { job with error := some out }
    (false, { job with errors := job.errors ++
      [phaseFailEntry job ("validating") ("Validation failed") env.now] })
  | .success => (true, job)

/-- One pass of the `while` body of `runCreationProcess`: bump the
iteration counter, set phase label and progress, log, run the round;
on a retryable failure set status `running` and prepare the next
iteration (which touches only the filesystem and the host logger, not
the job record). -/
def runCreationStep (hasAnthropic : Bool) (env : IterEnv)
    (job : PluginCreationJob) : Bool × PluginCreationJob :=
  let job := { job with currentIteration := job.currentIteration + 1 }
  let job := { job with
    currentPhase := "iteration " ++ toString job.currentIteration ++ "/" ++
      toString job.maxIterations
    progress := job.currentIteration * 100 / job.maxIterations
    logs := job.logs ++
      [logLine env.now ("Starting iteration " ++ toString job.currentIteration)] }
  let r := runSingleIteration hasAnthropic env job
  if !r.1 && r.2.currentIteration < r.2.maxIterations then
    (r.1, { r.2 with status := .running })
  else r

/-- The `while (currentIteration < maxIterations && !success)` loop,
with the round oracles indexed by round number (`envs i` drives round
`i`, rounds counted from 1) and enough fuel to exhaust the budget. -/
def runCreationLoop (hasAnthropic : Bool) (envs : Nat → IterEnv) :
    Nat → Bool → PluginCreationJob → Bool × PluginCreationJob
  | 0, success, job => (success, job)
  | fuel + 1, success, job =>
    if job.currentIteration < job.maxIterations && !success then
      let r := runCreationStep hasAnthropic (envs (job.currentIteration + 1)) job
      runCreationLoop hasAnthropic envs fuel r.1 r.2
    else (success, job)

/-- Source `runCreationProcess` after workspace setup (the Workspace
Manager is an external collaborator whose only job-record effect is a
log line, elided here): run the iteration loop, then finalise the job
as `completed` or `failed`, stamping `completedAt`. -/
def runCreationProcess (hasAnthropic : Bool) (envs : Nat → IterEnv)
    (finishNow : Nat) (job : PluginCreationJob) : PluginCreationJob :=
  let r := runCreationLoop hasAnthropic envs job.maxIterations false job
  if r.1 then
    { r.2 with
      status := .completed
      completedAt := some finishNow
      logs := r.2.logs ++ [logLine finishNow ("Job completed successfully")] }
  else
    { r.2 with
      status := .failed
      completedAt := some finishNow
      logs := r.2.logs ++ [logLine finishNow ("Job failed after maximum iterations")] }

/-- Round oracle where every phase succeeds. -/
def allOkEnv (now : Nat) : IterEnv :=
  { genOutcome := .success
    buildOutcome := .success
    lintOutcome := .success
    testOutcome := .success
    validateOutcome := .success
    now := now }

example :
    (runSingleIteration true (allOkEnv 7) (newJob ("j1") ("a/b") (["d"]) 0)).1
      = true := by decide

example :
    (runCreationProcess true (fun _ => allOkEnv 7) 9
      (newJob ("j1") ("a/b") (["d"]) 0)).status = JobStatus.completed := by decide

example :
    (runCreationProcess true (fun _ => allOkEnv 7) 9
      (newJob ("j1") ("a/b") (["d"]) 0)).currentIteration = 1 := by decide

/-! ## C3: build failure short-circuits the round -/

/-- C3: in a round whose generate phase succeeds and whose build phase
fails, `runSingleIteration` stops after the build phase with exactly one
new ledger record — phase `building`, the current iteration number, the
build output (or the `Build failed` default when the output is empty)
and the round timestamp — and the result does not depend on the lint,
test or validate oracles, which are therefore never executed. -/
theorem c3_build_short_circuit (env : IterEnv) (job : PluginCreationJob)
    (out : String)
    (hg : env.genOutcome = GenOutcome.success)
    (hb : env.buildOutcome = PhaseOutcome.failure out) :
    runSingleIteration true env job =
      (false,
        { job with
          currentPhase := "building"
          error := some out
          errors := job.errors ++
            [({ iteration := job.currentIteration
                phase := "building"
                error := if out = "" then ("Build failed") else out
                timestamp := env.now } : ErrorEntry)] }) ∧
    (∀ env' : IterEnv, env'.genOutcome = env.genOutcome →
      env'.buildOutcome = env.buildOutcome → env'.now = env.now →
      runSingleIteration true env' job = runSingleIteration true env job) := by
  constructor
  · simp [runSingleIteration, generatePluginCode, hg, hb, phaseFailEntry, orDefault]
  · intro env' hg' hb' hn'
    simp [runSingleIteration, generatePluginCode, hg, hb, hg', hb', hn',
      phaseFailEntry, orDefault]

/-- C3 witness: a concrete round with a failing build. -/
theorem c3_build_short_circuit_witness :
    runSingleIteration true
        { allOkEnv 42 with buildOutcome := PhaseOutcome.failure ("tsc exit 2") }
        (newJob ("j1") ("a/b") (["d"]) 0) =
      (false,
        { newJob ("j1") ("a/b") (["d"]) 0 with
          currentPhase := "building"
          error := some ("tsc exit 2")
          errors :=
            [({ iteration := 0
                phase := "building"
                error := "tsc exit 2"
                timestamp := 42 } : ErrorEntry)] }) := by
  have h := (c3_build_short_circuit
    { allOkEnv 42 with buildOutcome := PhaseOutcome.failure ("tsc exit 2") }
    (newJob ("j1") ("a/b") (["d"]) 0) ("tsc exit 2") (by decide) (by decide)).1
  simpa [newJob, allOkEnv] using h

/-! ## C9: behaviour with no generation provider configured -/

/-- C9: with no generation provider configured, the validate phase is a
no-op success and the generate phase throws, so a round always fails in
the `generating` phase — the single appended ledger record carries
phase `generating`, and no `validating` record can ever be produced. -/
theorem c9_no_provider_phases (env : IterEnv) (job : PluginCreationJob) :
    validatePlugin false env = PhaseOutcome.success ∧
    generatePluginCode false env =
      Except.error ("AI code generation not available without ANTHROPIC_API_KEY") ∧
    runSingleIteration false env job =
      (false,
        { job with
          currentPhase := "generating"
          error := some ("AI code generation not available without ANTHROPIC_API_KEY")
          completedAt := some env.now
          errors := job.errors ++
            [({ iteration := job.currentIteration
                phase := "generating"
                error := "AI code generation not available without ANTHROPIC_API_KEY"
                timestamp := env.now } : ErrorEntry)]
          logs := job.logs ++
            [logLine env.now ("Error in iteration: " ++
              "AI code generation not available without ANTHROPIC_API_KEY")] }) := by
  refine ⟨rfl, rfl, ?_⟩
  simp [runSingleIteration, generatePluginCode]

/-! ## C1: `completedAt` vs terminal status

The catch handler of `runSingleIteration` stamps `job.completedAt`
(`job.completedAt = new Date()`) without moving the job to a terminal
status, and the loop then continues with status `running` when budget
remains, so the claimed invariant fails at an observable point. -/

/-- A job as created without an `ANTHROPIC_API_KEY` (its background
creation process still runs and its generate phase throws). -/
def c1Job : PluginCreationJob :=
  newJob ("job-1") ("scope/pkg") (["data", "plugins", "job-1", "scope-pkg"]) 0

/-- C1: evaluation at the failing input — after round 1 of a job whose
generate phase throws (here: no provider configured) with iteration
budget remaining, the job observably has status `running` (not
terminal) while `completedAt` is already set, violating the claimed
iff-invariant. -/
theorem c1_completedAt_set_while_running :
    (runCreationStep false (allOkEnv 11) c1Job).2.status = JobStatus.running ∧
    (runCreationStep false (allOkEnv 11) c1Job).2.completedAt = some 11 ∧
    (runCreationStep false (allOkEnv 11) c1Job).2.status.isTerminal = false := by
  decide

/-! ## C2: an exception escaping a phase does not abort the job

The exception is caught inside `runSingleIteration`, recorded on the
ledger with the active phase, and the round merely returns `false`;
`runCreationProcess` then retries while budget remains. -/

/-- Round oracles: the provider call throws in round 1, every phase
succeeds from round 2 on. -/
def c2RoundEnv : Nat → IterEnv := fun i =>
  if i = 1 then
    { allOkEnv 10 with genOutcome := GenOutcome.raises ("provider connection lost") }
  else allOkEnv 20

/-- C2 counterexample: a job whose round 1 is aborted by an uncaught
exception and whose round 2 succeeds ends `completed` after two
iterations — the exception neither fails the job immediately nor stops
further iterations, contradicting the claim (the message and active
phase are recorded, but the job is retried). -/
theorem c2_counterexample :
    (runCreationProcess true c2RoundEnv 30
        (newJob ("job-1") ("scope/pkg") (["data"]) 0)).status = JobStatus.completed ∧
    (runCreationProcess true c2RoundEnv 30
        (newJob ("job-1") ("scope/pkg") (["data"]) 0)).currentIteration = 2 ∧
    (runCreationProcess true c2RoundEnv 30
        (newJob ("job-1") ("scope/pkg") (["data"]) 0)).errors =
      [({ iteration := 1
          phase := "generating"
          error := "provider connection lost"
          timestamp := 10 } : ErrorEntry)] := by
  decide

/-- C2 amended: when an uncaught exception escapes a phase in a round
with iteration budget remaining, the exception message together with
the active phase is recorded on the job's error ledger and the job's
`error` field, but the job is not failed: it moves to status `running`
and the loop proceeds to the next round (the job only becomes `failed`
once all rounds are exhausted without success, or when an exception
escapes the round loop itself). -/
theorem c2_exception_recorded_and_retried (envs : Nat → IterEnv)
    (job : PluginCreationJob) (msg : String) (fuel : Nat)
    (hg : (envs (job.currentIteration + 1)).genOutcome = GenOutcome.raises msg)
    (hlt : job.currentIteration + 1 < job.maxIterations) :
    ∃ j' : PluginCreationJob,
      runCreationLoop true envs (fuel + 1) false job =
        runCreationLoop true envs fuel false j' ∧
      j'.status = JobStatus.running ∧
      j'.completedAt = some (envs (job.currentIteration + 1)).now ∧
      j'.error = some msg ∧
      j'.currentIteration = job.currentIteration + 1 ∧
      j'.errors = job.errors ++
        [({ iteration := job.currentIteration + 1
            phase := "generating"
            error := msg
            timestamp := (envs (job.currentIteration + 1)).now } : ErrorEntry)] := by
  have hc : job.currentIteration < job.maxIterations := Nat.lt_of_succ_lt hlt
  refine ⟨(runCreationStep true (envs (job.currentIteration + 1)) job).2, ?_, ?_⟩
  · have hr : (runCreationStep true (envs (job.currentIteration + 1)) job).1 = false := by
      simp [runCreationStep, runSingleIteration, generatePluginCode, hg, hlt]
    rw [runCreationLoop, if_pos (by simp [hc])]
    show runCreationLoop true envs fuel
        (runCreationStep true (envs (job.currentIteration + 1)) job).1
        (runCreationStep true (envs (job.currentIteration + 1)) job).2 = _
    rw [hr]
  · simp [runCreationStep, runSingleIteration, generatePluginCode, hg, hlt]

/-- C2 witness: the amended theorem applied to the concrete round-1
exception scenario. -/
theorem c2_exception_recorded_and_retried_witness :
    ∃ j' : PluginCreationJob,
      runCreationLoop true c2RoundEnv 5 false
          (newJob ("job-1") ("scope/pkg") (["data"]) 0) =
        runCreationLoop true c2RoundEnv 4 false j' ∧
      j'.status = JobStatus.running ∧
      j'.completedAt = some 10 ∧
      j'.error = some ("provider connection lost") ∧
      j'.currentIteration = 1 ∧
      j'.errors =
        [({ iteration := 1
            phase := "generating"
            error := "provider connection lost"
            timestamp := 10 } : ErrorEntry)] := by
  have h := c2_exception_recorded_and_retried c2RoundEnv
    (newJob ("job-1") ("scope/pkg") (["data"]) 0)
    ("provider connection lost") 4 (by decide) (by decide)
  simpa [newJob, c2RoundEnv, allOkEnv] using h

/-! ## Character-level facts about validated and sanitised names

Needed to show that the sanitised segment of a validated name can
never be a path-traversal segment (`""`, `.`, `..`). -/

/-- Every character of a list accepted by `matchRest` is a name
character or the slash. -/
theorem matchRest_chars (cs : List Char) (h : matchRest cs = true) :
    ∀ c ∈ cs, isNameChar c = true ∨ c = '/' := by
  induction cs with
  | nil => exact absurd h (by simp [matchRest])
  | cons c rest ih =>
    intro x hx
    rw [matchRest] at h
    by_cases hc : c = '/'
    · rw [if_pos hc] at h
      rcases List.mem_cons.mp hx with rfl | hx'
      · exact Or.inr hc
      · rw [nameRun, Bool.and_eq_true, List.all_eq_true] at h
        exact Or.inl (h.2 x hx')
    · rw [if_neg hc, Bool.and_eq_true] at h
      rcases List.mem_cons.mp hx with rfl | hx'
      · exact Or.inl h.1
      · exact ih h.2 x hx'

/-- Every character of a list accepted by `matchScope` is a name
character or the slash, and the list is nonempty. -/
theorem matchScope_chars (cs : List Char) (h : matchScope cs = true) :
    cs ≠ [] ∧ ∀ c ∈ cs, isNameChar c = true ∨ c = '/' := by
  cases cs with
  | nil => exact absurd h (by simp [matchScope])
  | cons c rest =>
    rw [matchScope, Bool.and_eq_true] at h
    refine ⟨by simp, ?_⟩
    intro x hx
    rcases List.mem_cons.mp hx with rfl | hx'
    · exact Or.inl h.1
    · exact matchRest_chars rest h.2 x hx'

/-- The sanitisation map sends every character a validated name can
contain to something other than `.` and other than `/`. -/
theorem sanitizeChar_ne_special (c : Char)
    (h : isNameChar c = true ∨ c = '/') :
    sanitizeChar c ≠ '.' ∧ sanitizeChar c ≠ '/' := by
  rcases h with h | h
  · have hns : ¬ c = '/' := by
      intro hc; subst hc; exact absurd h (by decide)
    rw [sanitizeChar, if_neg hns, Char.toLower]
    split
    case isTrue hr =>
      obtain ⟨h1, h2⟩ := hr
      obtain ⟨n, hn⟩ : ∃ n, Char.toNat c = n := ⟨_, rfl⟩
      rw [hn] at h1 h2 ⊢
      interval_cases n <;> exact ⟨by decide, by decide⟩
    case isFalse hr =>
      constructor
      · intro hc; rw [hc] at h; exact absurd h (by decide)
      · exact hns
  · subst h; exact ⟨by decide, by decide⟩

/-- The sanitised form of a validated plugin name is a normal path
segment: nonempty, not `.` and not `..`. -/
theorem sanitize_segment_ok (name : String)
    (h : isValidPluginName name = true) :
    ¬ (sanitizePluginName name = "" ∨ sanitizePluginName name = ".") ∧
    sanitizePluginName name ≠ ".." := by
  have hm : matchScope (stripAt name.data) = true := by
    rw [isValidPluginName] at h
    rw [Bool.and_eq_true] at h
    rw [Bool.and_eq_true] at h
    rw [Bool.and_eq_true] at h
    exact h.1.1.1
  obtain ⟨hne, hchars⟩ := matchScope_chars _ hm
  have hdot : ∀ x ∈ (stripAt name.data).map sanitizeChar, x ≠ '.' := by
    intro x hx
    obtain ⟨c, hc, rfl⟩ := List.mem_map.mp hx
    exact (sanitizeChar_ne_special c (hchars c hc)).1
  refine ⟨?_, ?_⟩
  · rintro (hq | hq)
    · have : (stripAt name.data).map sanitizeChar = [] := by
        have := congrArg String.data hq
        simpa [sanitizePluginName] using this
      exact hne (List.map_eq_nil_iff.mp this)
    · have : (stripAt name.data).map sanitizeChar = ['.'] := by
        have := congrArg String.data hq
        simpa [sanitizePluginName] using this
      exact hdot '.' (this ▸ List.mem_singleton_self '.') rfl
  · intro hq
    have : (stripAt name.data).map sanitizeChar = ['.', '.'] := by
      have := congrArg String.data hq
      simpa [sanitizePluginName] using this
    exact hdot '.' (by rw [this]; exact List.mem_cons_self '.' ['.']) rfl

/-! ## Segment-list path facts -/

/-- A list is always led by itself followed by anything. -/
theorem leadsWith_append {α : Type} [DecidableEq α] (l rest : List α) :
    leadsWith l (l ++ rest) = true := by
  induction l with
  | nil => rfl
  | cons a as ih => simp [leadsWith, ih]

/-- Resolving `dataDir ++ ["plugins", jobId, san]` for a normal final
segment `san` lands strictly below `resolvePath dataDir`: at worst the
`..` of a hostile job identifier consumes the `plugins` segment, never
the data root. -/
theorem resolve_append_descendant (dataDir : List String) (jobId san : String)
    (hsan1 : ¬ (san = "" ∨ san = ".")) (hsan2 : san ≠ "..") :
    ∃ extra : List String, extra ≠ [] ∧
      resolvePath (dataDir ++ ["plugins", jobId, san]) =
        resolvePath dataDir ++ extra := by
  have hstep : ∀ acc : List String, stepSeg acc san = acc ++ [san] := by
    intro acc; rw [stepSeg, if_neg hsan1, if_neg hsan2]
  have hplug : stepSeg (resolvePath dataDir) ("plugins") =
      resolvePath dataDir ++ ["plugins"] := by
    rw [stepSeg, if_neg (by simp), if_neg (by simp)]
  rw [show resolvePath (dataDir ++ ["plugins", jobId, san]) =
        List.foldl stepSeg (resolvePath dataDir) (["plugins", jobId, san]) from
      List.foldl_append stepSeg [] dataDir ["plugins", jobId, san]]
  simp only [List.foldl, hplug]
  by_cases h1 : jobId = "" ∨ jobId = "."
  · rw [show stepSeg (resolvePath dataDir ++ ["plugins"]) jobId =
        resolvePath dataDir ++ ["plugins"] from by rw [stepSeg, if_pos h1], hstep]
    exact ⟨["plugins", san], by simp, by simp⟩
  · by_cases h2 : jobId = ".."
    · rw [show stepSeg (resolvePath dataDir ++ ["plugins"]) jobId =
          resolvePath dataDir from by
        rw [stepSeg, if_neg h1, if_pos h2, List.dropLast_concat], hstep]
      exact ⟨[san], by simp, rfl⟩
    · rw [show stepSeg (resolvePath dataDir ++ ["plugins"]) jobId =
          resolvePath dataDir ++ ["plugins", jobId] from by
        rw [stepSeg, if_neg h1, if_neg h2]; simp, hstep]
      exact ⟨["plugins", jobId, san], by simp, by simp⟩

/-! ## Service state and operations (source: `PluginCreationService`)

The mutable instance state consulted by the verified operations: the
job map (an insertion-ordered association list standing for the JS
`Map`), the created-name registry (`Set`), whether a generation
provider is configured (`anthropic !== null`), and the rate-limiter
cells `lastJobCreation` / `jobCreationCount`.  Job identifiers
(`uuidv4()`) and the current clock are inputs. -/

/-- Mutable service state. -/
structure ServiceState where
  jobs : List (String × PluginCreationJob)
  createdPlugins : List String
  hasAnthropic : Bool
  lastJobCreation : Nat
  jobCreationCount : Nat
deriving DecidableEq

/-- Fresh service state (empty maps, zeroed rate limiter). -/
def initState (hasAnthropic : Bool) : ServiceState :=
  { jobs := []
    createdPlugins := []
    hasAnthropic := hasAnthropic
    lastJobCreation := 0
    jobCreationCount := 0 }

/-- `jobs.get(jobId)` on the association list. -/
def lookupJob : List (String × PluginCreationJob) → String →
    Option PluginCreationJob
  | [], _ => none
  | (k, v) :: rest, jobId => if k = jobId then some v else lookupJob rest jobId

/-- `jobs.set(jobId, job)`: replace in place, or append a new binding. -/
def setJob : List (String × PluginCreationJob) → String → PluginCreationJob →
    List (String × PluginCreationJob)
  | [], k, v => [(k, v)]
  | (k', v') :: rest, k, v =>
    if k' = k then (k, v) :: rest else (k', v') :: setJob rest k v

/-- `createdPlugins.has(name)` on the list standing for the JS `Set`. -/
def containsName : List String → String → Bool
  | [], _ => false
  | x :: xs, n => x = n || containsName xs n

/-- One hour in milliseconds. -/
def oneHourMs : Nat := 60 * 60 * 1000

/-- Source `checkRateLimit`: lazily zero the counter once more than an
hour has passed since the last counted creation; refuse at 10 per
window; otherwise stamp the clock and count this creation. -/
def checkRateLimit (s : ServiceState) (now : Nat) : Bool × ServiceState :=
  let s := if oneHourMs < now - s.lastJobCreation then
    { s with jobCreationCount := 0 } else s
  if 10 ≤ s.jobCreationCount then (false, s)
  else (true, { s with lastJobCreation := now, jobCreationCount := s.jobCreationCount + 1 })

/-- Anthropic re-initialisation inside `createPlugin`: an explicitly
passed API key switches the provider on. -/
def withApiKey (s : ServiceState) (apiKey : Option String) : ServiceState :=
  if apiKey.isSome then { s with hasAnthropic := true } else s

/-- The state after the ok path of `createPlugin` stores the job and
registers the name (applied to the post-rate-limit state). -/
def createdState (s : ServiceState) (specName : String) (apiKey : Option String)
    (jobId : String) (dataDir : List String) (now : Nat) : ServiceState :=
  { withApiKey s apiKey with
    jobs := (withApiKey s apiKey).jobs ++
      [(jobId, newJob jobId specName
        (resolvePath (dataDir ++ ["plugins", jobId, sanitizePluginName specName])) now)]
    createdPlugins := (withApiKey s apiKey).createdPlugins ++ [specName] }

/-- Source `createPlugin`: duplicate-name check, name validation, rate
limit, capacity limit, provider initialisation from an explicit API
key, output-path construction and sandbox check, then the job record
is stored and the name registered.  A thrown admission error is the
`Except.error` carrying the source's message, paired with the state
the service is left in (mutations made by an earlier check persist). -/
def createPlugin (s : ServiceState) (specName : String) (apiKey : Option String)
    (jobId : String) (dataDir : List String) (now : Nat) :
    Except String String × ServiceState :=
  if containsName s.createdPlugins specName then
    (.error ("Plugin " ++ specName ++ " has already been created in this session"), s)
  else if !isValidPluginName specName then
    (.error ("Invalid plugin name. Must follow format: @scope/plugin-name"), s)
  else if !(checkRateLimit s now).1 then
    (.error ("Rate limit exceeded. Please wait before creating another plugin."),
      (checkRateLimit s now).2)
  else if 10 ≤ (checkRateLimit s now).2.jobs.length then
    (.error ("Maximum number of concurrent jobs reached. Please wait for existing jobs to complete."),
      (checkRateLimit s now).2)
  else if !leadsWith (resolvePath dataDir)
      (resolvePath (dataDir ++ ["plugins", jobId, sanitizePluginName specName])) then
    (.error ("Invalid output path"), withApiKey (checkRateLimit s now).2 apiKey)
  else
    (.ok jobId, createdState (checkRateLimit s now).2 specName apiKey jobId dataDir now)

/-- The record rewrite `cancelJob` performs on a cancellable job:
status `cancelled`, `completedAt` stamped, one log line appended. -/
def cancelledJob (job : PluginCreationJob) (now : Nat) : PluginCreationJob :=
  { job with
    status := JobStatus.cancelled
    completedAt := some now
    logs := job.logs ++ [logLine now ("Job cancelled by user")] }

/-- Source `cancelJob`: only a `pending` or `running` job is cancelled
(the in-flight child process additionally receives a graceful signal,
not part of the job record); otherwise the state is untouched. -/
def cancelJob (s : ServiceState) (jobId : String) (now : Nat) : ServiceState :=
  match lookupJob s.jobs jobId with
  | none => s
  | some job =>
    if job.status = .pending || job.status = .running then
      { s with jobs := setJob s.jobs jobId (cancelledJob job now) }
    else s

instance {ε α : Type} [DecidableEq ε] [DecidableEq α] :
    DecidableEq (Except ε α) := fun a b =>
  match a, b with
  | .error e, .error f =>
    if h : e = f then .isTrue (h ▸ rfl)
    else .isFalse (fun hc => h (Except.error.inj hc))
  | .ok x, .ok y =>
    if h : x = y then .isTrue (h ▸ rfl)
    else .isFalse (fun hc => h (Except.ok.inj hc))
  | .error _, .ok _ => .isFalse (fun hc => Except.noConfusion hc)
  | .ok _, .error _ => .isFalse (fun hc => Except.noConfusion hc)

example :
    (createPlugin (initState false) ("scope/pkg") none ("id-1")
      (["root", "data"]) 5).1 = Except.ok ("id-1") := by decide

example :
    (createPlugin (initState false) ("../evil") none ("id-1")
      (["root", "data"]) 5).1 =
      Except.error ("Invalid plugin name. Must follow format: @scope/plugin-name") := by
  decide

/-! ## Service-level helper lemmas -/

/-- Appending a binding for a key absent from the map makes it the
key's value. -/
theorem lookupJob_append_fresh (l : List (String × PluginCreationJob))
    (k : String) (v : PluginCreationJob) (h : lookupJob l k = none) :
    lookupJob (l ++ [(k, v)]) k = some v := by
  induction l with
  | nil => simp [lookupJob]
  | cons p rest ih =>
    obtain ⟨k', v'⟩ := p
    rw [lookupJob] at h
    by_cases hk : k' = k
    · rw [if_pos hk] at h; exact absurd h (by simp)
    · rw [show ((k', v') :: rest) ++ [(k, v)] = (k', v') :: (rest ++ [(k, v)]) from rfl,
        lookupJob, if_neg hk]
      exact ih (by rw [if_neg hk] at h; exact h)

/-- Membership in an appended name registry. -/
theorem containsName_append (l1 l2 : List String) (n : String) :
    containsName (l1 ++ l2) n = (containsName l1 n || containsName l2 n) := by
  induction l1 with
  | nil => simp [containsName]
  | cons x xs ih =>
    rw [show (x :: xs) ++ l2 = x :: (xs ++ l2) from rfl, containsName, ih,
      containsName, Bool.or_assoc]

/-- The rate limiter never touches the job map. -/
theorem checkRateLimit_jobs (s : ServiceState) (now : Nat) :
    (checkRateLimit s now).2.jobs = s.jobs := by
  rw [checkRateLimit]
  by_cases h1 : oneHourMs < now - s.lastJobCreation <;>
    simp only [h1, if_true, if_false] <;> split <;> rfl

/-- The rate limiter never touches the name registry. -/
theorem checkRateLimit_createdPlugins (s : ServiceState) (now : Nat) :
    (checkRateLimit s now).2.createdPlugins = s.createdPlugins := by
  rw [checkRateLimit]
  by_cases h1 : oneHourMs < now - s.lastJobCreation <;>
    simp only [h1, if_true, if_false] <;> split <;> rfl

/-- Full case analysis of `checkRateLimit`: either the window is still
open with the counter exhausted and the call refuses leaving the state
untouched, or it accepts, stamping the clock and incrementing the
(possibly lazily reset) counter. -/
theorem checkRateLimit_cases (s : ServiceState) (now : Nat) :
    (¬ oneHourMs < now - s.lastJobCreation ∧ 10 ≤ s.jobCreationCount ∧
      checkRateLimit s now = (false, s)) ∨
    ((checkRateLimit s now).1 = true ∧
      (checkRateLimit s now).2.lastJobCreation = now ∧
      (checkRateLimit s now).2.jobCreationCount =
        (if oneHourMs < now - s.lastJobCreation then 0 else s.jobCreationCount) + 1) := by
  by_cases h1 : oneHourMs < now - s.lastJobCreation
  · right
    rw [checkRateLimit]
    simp [h1]
  · by_cases h2 : 10 ≤ s.jobCreationCount
    · exact Or.inl ⟨h1, h2, by rw [checkRateLimit]; simp [h1, h2]⟩
    · right
      rw [checkRateLimit]
      simp [h1, h2]

/-- `withApiKey` changes at most the provider flag. -/
theorem withApiKey_fields (s : ServiceState) (apiKey : Option String) :
    (withApiKey s apiKey).jobs = s.jobs ∧
    (withApiKey s apiKey).createdPlugins = s.createdPlugins ∧
    (withApiKey s apiKey).lastJobCreation = s.lastJobCreation ∧
    (withApiKey s apiKey).jobCreationCount = s.jobCreationCount := by
  rw [withApiKey]; split <;> exact ⟨rfl, rfl, rfl, rfl⟩

/-- The ok-path state keeps the rate-limiter cells and grows the job
map by exactly the one new binding. -/
theorem createdState_fields (s : ServiceState) (n : String) (a : Option String)
    (j : String) (d : List String) (t : Nat) :
    (createdState s n a j d t).jobCreationCount = s.jobCreationCount ∧
    (createdState s n a j d t).lastJobCreation = s.lastJobCreation ∧
    (createdState s n a j d t).jobs.length = s.jobs.length + 1 := by
  refine ⟨?_, ?_, ?_⟩
  · show (withApiKey s a).jobCreationCount = _
    exact (withApiKey_fields s a).2.2.2
  · show (withApiKey s a).lastJobCreation = _
    exact (withApiKey_fields s a).2.2.1
  · show ((withApiKey s a).jobs ++ [_]).length = _
    rw [List.length_append, (withApiKey_fields s a).1]
    rfl

/-- Supporting invariant: `createPlugin` only ever registers names it
has validated, so every reachable registry contains only valid names
(the hypothesis the admission theorems place on the state). -/
theorem createPlugin_preserves_registry (s : ServiceState) (name : String)
    (apiKey : Option String) (jobId : String) (dataDir : List String) (now : Nat)
    (hgood : ∀ n, containsName s.createdPlugins n = true → isValidPluginName n = true) :
    ∀ n, containsName
        (createPlugin s name apiKey jobId dataDir now).2.createdPlugins n = true →
      isValidPluginName n = true := by
  intro n hn
  rw [createPlugin] at hn
  split at hn
  · exact hgood n hn
  · split at hn
    · exact hgood n hn
    · split at hn
      · rw [checkRateLimit_createdPlugins] at hn
        exact hgood n hn
      · split at hn
        · rw [checkRateLimit_createdPlugins] at hn
          exact hgood n hn
        · split at hn
          · rw [(withApiKey_fields _ _).2.1, checkRateLimit_createdPlugins] at hn
            exact hgood n hn
          · simp only [createdState] at hn
            rw [containsName_append, (withApiKey_fields _ _).2.1,
              checkRateLimit_createdPlugins, Bool.or_eq_true] at hn
            rcases hn with hn | hn
            · exact hgood n hn
            · have hv : isValidPluginName name = true := by
                rename_i _ hq _ _ _
                simpa using hq
              have : name = n := by
                rw [containsName] at hn
                simpa [containsName] using hn
              rw [← this]; exact hv

/-! ## C4: name validation rejects traversal; created jobs are sandboxed -/

/-- C4: a creation request whose artifact name contains `..`, `./` or a
backslash, or fails the scoped `scope/name` pattern, is rejected with
the invalid-name error and the state — job map included — is left
exactly as it was (the name check precedes every mutation); and every
job a successful request creates has an `outputPath` that resolves to
a strict descendant of the resolved data root.  The state hypothesis —
every registered name is valid — holds in every reachable state by
`createPlugin_preserves_registry`; the job-identifier hypothesis
reflects the freshness of `uuidv4()`. -/
theorem c4_name_validation_and_sandbox
    (s : ServiceState) (name : String) (apiKey : Option String)
    (jobId : String) (dataDir : List String) (now : Nat)
    (hgood : ∀ n, containsName s.createdPlugins n = true → isValidPluginName n = true)
    (hfresh : lookupJob s.jobs jobId = none) :
    ((strHas name ("..") = true ∨ strHas name ("./") = true ∨
        strHas name ("\\") = true ∨ matchesPluginNamePattern name = false) →
      createPlugin s name apiKey jobId dataDir now =
        (Except.error ("Invalid plugin name. Must follow format: @scope/plugin-name"), s)) ∧
    (∀ jid s', createPlugin s name apiKey jobId dataDir now = (Except.ok jid, s') →
      ∃ job extra, lookupJob s'.jobs jobId = some job ∧ extra ≠ [] ∧
        job.outputPath = resolvePath dataDir ++ extra ∧
        leadsWith (resolvePath dataDir) job.outputPath = true) := by
  constructor
  · intro hbad
    have hv : isValidPluginName name = false := by
      rw [isValidPluginName]
      rcases hbad with h | h | h | h <;> simp [h]
    have hdup : containsName s.createdPlugins name = false := by
      cases hq : containsName s.createdPlugins name
      · rfl
      · exact absurd (hgood name hq) (by rw [hv]; simp)
    rw [createPlugin, hdup, hv]
    simp
  · intro jid s' h
    rw [createPlugin] at h
    split at h
    · exact absurd h (by simp)
    · split at h
      · exact absurd h (by simp)
      · split at h
        · exact absurd h (by simp)
        · split at h
          · exact absurd h (by simp)
          · split at h
            · exact absurd h (by simp)
            · have hv : isValidPluginName name = true := by
                rename_i _ hq _ _ _
                simpa using hq
              obtain ⟨hs1, hs2⟩ : jid = jobId ∧
                  createdState (checkRateLimit s now).2 name apiKey jobId dataDir now
                    = s' := by
                have := h
                simp only [Prod.mk.injEq, Except.ok.injEq] at this
                exact ⟨this.1.symm, this.2⟩
              obtain ⟨hsan1, hsan2⟩ := sanitize_segment_ok name hv
              obtain ⟨extra, hex, hres⟩ :=
                resolve_append_descendant dataDir jobId (sanitizePluginName name)
                  hsan1 hsan2
              refine ⟨newJob jobId name
                (resolvePath (dataDir ++ ["plugins", jobId, sanitizePluginName name]))
                now, extra, ?_, hex, hres, by rw [hres]; exact leadsWith_append _ _⟩
              rw [← hs2]
              simp only [createdState]
              show lookupJob ((withApiKey (checkRateLimit s now).2 apiKey).jobs ++
                [(jobId, _)]) jobId = _
              rw [(withApiKey_fields _ _).1, checkRateLimit_jobs]
              exact lookupJob_append_fresh s.jobs jobId _ hfresh

/-- C4 witness: the traversal name `../evil` is rejected with the
invalid-name error leaving a concrete fresh state untouched, and a
concrete successful creation yields a job stored under a strict
descendant of the data root. -/
theorem c4_name_validation_and_sandbox_witness :
    createPlugin (initState false) ("../evil") none ("id-1") (["root", "data"]) 5 =
      (Except.error ("Invalid plugin name. Must follow format: @scope/plugin-name"),
        initState false) ∧
    (∃ job extra,
      lookupJob (createPlugin (initState false) ("@scope/pkg") none ("id-1")
          (["root", "data"]) 5).2.jobs ("id-1") = some job ∧ extra ≠ [] ∧
        job.outputPath = resolvePath (["root", "data"]) ++ extra ∧
        leadsWith (resolvePath (["root", "data"])) job.outputPath = true) := by
  constructor
  · exact (c4_name_validation_and_sandbox (initState false) ("../evil") none ("id-1")
      (["root", "data"]) 5 (by intro n hn; simp [initState, containsName] at hn)
      (by decide)).1 (by decide)
  · exact (c4_name_validation_and_sandbox (initState false) ("@scope/pkg") none ("id-1")
      (["root", "data"]) 5 (by intro n hn; simp [initState, containsName] at hn)
      (by decide)).2 ("id-1")
      (createPlugin (initState false) ("@scope/pkg") none ("id-1") (["root", "data"]) 5).2
      (by decide)

/-! ## C8: cancellation -/

/-- C8: cancelling a job in a terminal status changes nothing at all —
in particular its status, `completedAt` and logs are untouched — while
cancelling a `pending` or `running` job sets status `cancelled`,
stamps `completedAt` with the cancellation time and appends one log
entry, leaving every other job field unchanged. -/
theorem c8_cancel_idempotent_on_terminal (s : ServiceState) (jobId : String)
    (now : Nat) (job : PluginCreationJob)
    (h : lookupJob s.jobs jobId = some job) :
    (job.status.isTerminal = true → cancelJob s jobId now = s) ∧
    ((job.status = JobStatus.pending ∨ job.status = JobStatus.running) →
      cancelJob s jobId now =
        { s with jobs := setJob s.jobs jobId (cancelledJob job now) }) := by
  constructor
  · intro ht
    rw [cancelJob, h]
    cases hs : job.status <;> simp_all [JobStatus.isTerminal]
  · intro hp
    rw [cancelJob, h]
    rcases hp with hp | hp <;> simp [hp]

/-- A concrete job already in a terminal state. -/
def doneJob : PluginCreationJob :=
  { newJob ("a") ("s/a") (["d"]) 0 with
    status := JobStatus.completed
    completedAt := some 3 }

/-- A concrete job still in flight. -/
def liveJob : PluginCreationJob :=
  { newJob ("b") ("s/b") (["d"]) 0 with status := JobStatus.running }

/-- Concrete service state holding `doneJob` and `liveJob`. -/
def twoJobState : ServiceState :=
  { initState false with jobs := [("a", doneJob), ("b", liveJob)] }

/-- C8 witness: cancelling the terminal job is the identity on the
whole state; cancelling the running job rewrites exactly status,
`completedAt` and the log. -/
theorem c8_cancel_idempotent_on_terminal_witness :
    cancelJob twoJobState ("a") 9 = twoJobState ∧
    cancelJob twoJobState ("b") 9 =
      { twoJobState with jobs := setJob twoJobState.jobs ("b") (cancelledJob liveJob 9) } := by
  constructor
  · exact (c8_cancel_idempotent_on_terminal twoJobState ("a") 9 doneJob
      (by decide)).1 (by decide)
  · exact (c8_cancel_idempotent_on_terminal twoJobState ("b") 9 liveJob
      (by decide)).2 (Or.inr (by decide))

/-! ## C7: rate limiting across the rolling window -/

/-- Ten successive successful creations at one-millisecond intervals
(distinct names and identifiers); they exhaust the 10-per-hour budget
and leave 10 jobs tracked in memory. -/
def c7Chain : ServiceState :=
  let s1 := (createPlugin (initState false) ("s/p0") none ("i0") (["root", "data"]) 0).2
  let s2 := (createPlugin s1 ("s/p1") none ("i1") (["root", "data"]) 1).2
  let s3 := (createPlugin s2 ("s/p2") none ("i2") (["root", "data"]) 2).2
  let s4 := (createPlugin s3 ("s/p3") none ("i3") (["root", "data"]) 3).2
  let s5 := (createPlugin s4 ("s/p4") none ("i4") (["root", "data"]) 4).2
  let s6 := (createPlugin s5 ("s/p5") none ("i5") (["root", "data"]) 5).2
  let s7 := (createPlugin s6 ("s/p6") none ("i6") (["root", "data"]) 6).2
  let s8 := (createPlugin s7 ("s/p7") none ("i7") (["root", "data"]) 7).2
  let s9 := (createPlugin s8 ("s/p8") none ("i8") (["root", "data"]) 8).2
  (createPlugin s9 ("s/p9") none ("i9") (["root", "data"]) 9).2

/-- C7 counterexample: after ten successful creations within an hour,
the 11th request fails with the rate-limit error and creates no job —
but the same request repeated more than an hour after the last
creation does not succeed: the ten still-tracked jobs make it fail
with the capacity error instead, refuting the claim's second half. -/
theorem c7_counterexample :
    c7Chain.jobCreationCount = 10 ∧ c7Chain.jobs.length = 10 ∧
    (createPlugin c7Chain ("s/pa") none ("ia") (["root", "data"]) 100).1 =
      Except.error ("Rate limit exceeded. Please wait before creating another plugin.") ∧
    (createPlugin c7Chain ("s/pa") none ("ia") (["root", "data"]) 100).2 = c7Chain ∧
    (createPlugin
        (createPlugin c7Chain ("s/pa") none ("ia") (["root", "data"]) 100).2
        ("s/pa") none ("ia") (["root", "data"]) (9 + oneHourMs + 1)).1 =
      Except.error ("Maximum number of concurrent jobs reached. Please wait for existing jobs to complete.") := by
  decide

/-- C7 amended: a creation call arriving while the rolling window is
still open (at most an hour since the last counted creation) with the
counter at 10 fails with the rate-limit error and leaves the state —
job map included — unchanged; once more than an hour has elapsed the
counter is lazily reset and the same request passes the rate limiter,
succeeding when fewer than 10 jobs are tracked in memory (with 10 or
more it fails with the capacity error instead, as the counterexample
shows). -/
theorem c7_rate_limit_window (s : ServiceState) (name : String)
    (apiKey : Option String) (jobId : String) (dataDir : List String) (now : Nat)
    (hdup : containsName s.createdPlugins name = false)
    (hval : isValidPluginName name = true) :
    (now - s.lastJobCreation ≤ oneHourMs → 10 ≤ s.jobCreationCount →
      createPlugin s name apiKey jobId dataDir now =
        (Except.error ("Rate limit exceeded. Please wait before creating another plugin."), s)) ∧
    (oneHourMs < now - s.lastJobCreation → s.jobs.length < 10 →
      ∃ s', createPlugin s name apiKey jobId dataDir now = (Except.ok jobId, s') ∧
        s'.jobCreationCount = 1 ∧
        s'.lastJobCreation = now ∧
        s'.jobs.length = s.jobs.length + 1) := by
  constructor
  · intro hwin hcount
    have hrl : checkRateLimit s now = (false, s) := by
      rw [checkRateLimit]
      simp [Nat.not_lt.mpr hwin, hcount]
    rw [createPlugin, hdup, hval, hrl]
    simp
  · intro hhour hcap
    have hrl : checkRateLimit s now =
        (true, { s with lastJobCreation := now, jobCreationCount := 1 }) := by
      rw [checkRateLimit]
      simp [hhour]
    obtain ⟨hsan1, hsan2⟩ := sanitize_segment_ok name hval
    obtain ⟨extra, hex, hres⟩ :=
      resolve_append_descendant dataDir jobId (sanitizePluginName name) hsan1 hsan2
    have hguard : leadsWith (resolvePath dataDir)
        (resolvePath (dataDir ++ ["plugins", jobId, sanitizePluginName name])) = true := by
      rw [hres]; exact leadsWith_append _ _
    have heval : createPlugin s name apiKey jobId dataDir now =
        (Except.ok jobId, createdState
          { s with lastJobCreation := now, jobCreationCount := 1 }
          name apiKey jobId dataDir now) := by
      rw [createPlugin, hdup, hval, hrl]
      simp [hguard, Nat.not_le.mpr hcap]
    refine ⟨_, heval, ?_, ?_, ?_⟩
    · rw [(createdState_fields _ _ _ _ _ _).1]
    · rw [(createdState_fields _ _ _ _ _ _).2.1]
    · rw [(createdState_fields _ _ _ _ _ _).2.2]

/-- C7 witness: the amended theorem applied to a window-open exhausted
state and to a window-elapsed state with free capacity. -/
theorem c7_rate_limit_window_witness :
    (createPlugin
        { initState false with jobCreationCount := 10, lastJobCreation := 0 }
        ("s/new") none ("idx") (["root", "data"]) 100 =
      (Except.error ("Rate limit exceeded. Please wait before creating another plugin."),
        { initState false with jobCreationCount := 10, lastJobCreation := 0 })) ∧
    (∃ s', createPlugin
        { initState false with jobCreationCount := 10, lastJobCreation := 0 }
        ("s/new") none ("idx") (["root", "data"]) (oneHourMs + 5) =
      (Except.ok ("idx"), s') ∧
        s'.jobCreationCount = 1 ∧
        s'.lastJobCreation = oneHourMs + 5 ∧
        s'.jobs.length = 1) := by
  constructor
  · exact (c7_rate_limit_window
      { initState false with jobCreationCount := 10, lastJobCreation := 0 }
      ("s/new") none ("idx") (["root", "data"]) 100
      (by decide) (by decide)).1 (by decide) (by decide)
  · have := (c7_rate_limit_window
      { initState false with jobCreationCount := 10, lastJobCreation := 0 }
      ("s/new") none ("idx") (["root", "data"]) (oneHourMs + 5)
      (by decide) (by decide)).2 (by decide) (by decide)
    simpa [initState] using this

/-! ## C10: a capacity-rejected request still consumes rate budget -/

/-- C10: a creation request that passes the duplicate-name, name-format
and rate-limit checks but is rejected by the capacity check (10 or
more tracked jobs) leaves the service in the post-rate-limit state:
the rolling counter has been incremented and the window clock stamped,
with no rollback, while the job map and registry are unchanged and no
job is created. -/
theorem c10_rate_counter_consumed (s : ServiceState) (name : String)
    (apiKey : Option String) (jobId : String) (dataDir : List String) (now : Nat)
    (hdup : containsName s.createdPlugins name = false)
    (hval : isValidPluginName name = true)
    (hrate : (checkRateLimit s now).1 = true)
    (hcap : 10 ≤ s.jobs.length) :
    createPlugin s name apiKey jobId dataDir now =
      (Except.error ("Maximum number of concurrent jobs reached. Please wait for existing jobs to complete."),
        (checkRateLimit s now).2) ∧
    (checkRateLimit s now).2.lastJobCreation = now ∧
    (checkRateLimit s now).2.jobCreationCount =
      (if oneHourMs < now - s.lastJobCreation then 0 else s.jobCreationCount) + 1 ∧
    (checkRateLimit s now).2.jobs = s.jobs ∧
    (checkRateLimit s now).2.createdPlugins = s.createdPlugins := by
  rcases checkRateLimit_cases s now with ⟨_, _, heq⟩ | ⟨_, h2, h3⟩
  · rw [heq] at hrate
    exact absurd hrate (by simp)
  · have hcap' : 10 ≤ (checkRateLimit s now).2.jobs.length := by
      rw [checkRateLimit_jobs]; exact hcap
    refine ⟨?_, h2, h3, checkRateLimit_jobs s now, checkRateLimit_createdPlugins s now⟩
    rw [createPlugin, hdup, hval, hrate]
    simp [hcap']

/-- Concrete job map holding ten tracked jobs. -/
def tenJobs : List (String × PluginCreationJob) :=
  (List.range 10).map (fun i =>
    ("jid" ++ toString i, newJob ("jid" ++ toString i) ("s/p" ++ toString i)
      (["root", "data"]) 0))

/-- C10 witness: with ten tracked jobs and three counted creations, a
fresh valid request is rejected by capacity while the counter moves
from 3 to 4 and the clock is stamped. -/
theorem c10_rate_counter_consumed_witness :
    createPlugin
        { jobs := tenJobs, createdPlugins := [], hasAnthropic := false,
          lastJobCreation := 0, jobCreationCount := 3 }
        ("s/new") none ("jid-x") (["root", "data"]) 50 =
      (Except.error ("Maximum number of concurrent jobs reached. Please wait for existing jobs to complete."),
        { jobs := tenJobs, createdPlugins := [], hasAnthropic := false,
          lastJobCreation := 50, jobCreationCount := 4 }) ∧
    ({ jobs := tenJobs, createdPlugins := [], hasAnthropic := false,
          lastJobCreation := 50, jobCreationCount := 4 } : ServiceState).jobs = tenJobs := by
  have h := c10_rate_counter_consumed
    { jobs := tenJobs, createdPlugins := [], hasAnthropic := false,
      lastJobCreation := 0, jobCreationCount := 3 }
    ("s/new") none ("jid-x") (["root", "data"]) 50
    (by decide) (by decide) (by decide) (by decide)
  refine ⟨?_, rfl⟩
  rw [h.1]
  decide

/-! ## Process-execution harness (source: `runCommand`)

The harness installs a spawn-`error` handler, a combined
stdout/stderr `data` handler with the 1 MiB output cap, a `close`
handler resolving the promise from the exit code, a 5-minute kill
timer resolving with a timeout marker, and an `exit` handler that
disarms the timer.  The child's behaviour is the sequence of events
delivered to those handlers; the promise keeps only its first
resolution.  Strings are carried as `List Char` (JS strings are
character sequences; chunk length stands for `Buffer.length`). -/

/-- The source's 1 MiB combined-output cap (`maxOutputSize`). -/
def maxOutputSize : Nat := 1024 * 1024

/-- Marker appended once when the cap is hit. -/
def truncMarker : List Char := ("\n[Output truncated due to size limit]").data

/-- The substring `output.includes('Output truncated')` probes for. -/
def truncProbe : List Char := ("Output truncated").data

/-- Marker appended when the 5-minute kill timer fires. -/
def timeoutMarker : List Char := ("\n[Process killed due to timeout]").data

/-- Source `handleData`: count every byte, append the chunk while the
running total stays under the cap; at or past the cap append the
truncation marker instead — but only if the captured output does not
already contain the text `Output truncated` — and otherwise discard
the chunk. -/
def handleData (acc : List Char × Nat) (chunk : List Char) : List Char × Nat :=
  let outputSize := acc.2 + chunk.length
  if outputSize < maxOutputSize then (acc.1 ++ chunk, outputSize)
  else if decide (maxOutputSize ≤ outputSize) && !containsSubL acc.1 truncProbe then
    (acc.1 ++ truncMarker, outputSize)
  else (acc.1, outputSize)

/-- Combined output accumulated over a whole sequence of chunks. -/
def accumulateOutput (chunks : List (List Char)) : List Char × Nat :=
  chunks.foldl handleData ([], 0)

/-- Total byte count of a chunk sequence. -/
def sumLens (chunks : List (List Char)) : Nat := (chunks.map List.length).sum

/-- Concatenation of a chunk sequence. -/
def flatChunks (chunks : List (List Char)) : List Char := chunks.flatten

/-- Promise-side state of one `runCommand` invocation. -/
structure CmdState where
  resolved : Option (Bool × List Char)
  output : List Char
  outputSize : Nat
  timerArmed : Bool
  killSignal : Option String
deriving DecidableEq

/-- State at spawn time: nothing captured, timer armed. -/
def initCmdState : CmdState :=
  { resolved := none
    output := []
    outputSize := 0
    timerArmed := true
    killSignal := none }

/-- JS promise `resolve`: only the first resolution counts. -/
def promiseResolve (st : CmdState) (r : Bool × List Char) : CmdState :=
  if st.resolved.isSome then st else { st with resolved := some r }

/-- Events the child process / Node runtime can deliver to the
handlers `runCommand` installs.  A `timerFire` only has an effect
while the timer is armed (`clearTimeout` semantics). -/
inductive CmdEvent where
  | errorEvent (code : String) (message : String)
  | dataEvent (chunk : List Char)
  | closeEvent (code : Option Int)
  | exitEvent
  | timerFire
deriving DecidableEq

/-- One handler invocation of `runCommand` (for the tool invocation
`cmd`): spawn errors resolve `success=false` with a descriptive
message (`ENOENT` specialised), data is capped, `close` resolves from
the exit code, the timer kill sends `SIGTERM` and resolves with the
timeout marker, and `exit` clears the timer. -/
def stepCmd (cmd : String) (st : CmdState) : CmdEvent → CmdState
  | .errorEvent code message =>
    if code = "ENOENT" then
      promiseResolve st
        (false, ("Error: Command '" ++ cmd ++ "' not found. " ++ message).data)
    else
      promiseResolve st (false, ("Process error: " ++ message).data)
  | .dataEvent chunk =>
    let r := handleData (st.output, st.outputSize) chunk
    { st with output := r.1, outputSize := r.2 }
  | .closeEvent code =>
    promiseResolve st (decide (code = some 0), st.output)
  | .exitEvent => { st with timerArmed := false }
  | .timerFire =>
    if st.timerArmed then
      let st := { st with killSignal := some ("SIGTERM"), timerArmed := false }
      promiseResolve st (false, st.output ++ timeoutMarker)
    else st

/-- The promise state after a whole event trace of one invocation. -/
def runCmdTrace (cmd : String) (events : List CmdEvent) : CmdState :=
  events.foldl (stepCmd cmd) initCmdState

example :
    (runCmdTrace ("npm") [CmdEvent.dataEvent (("ok").data),
      CmdEvent.exitEvent, CmdEvent.closeEvent (some 0)]).resolved =
    some (true, ("ok").data) := by decide

/-! ## C5: output capping -/

/-- A contiguous occurrence survives prepending. -/
theorem containsSubL_append_left {α : Type} [DecidableEq α] (a b pat : List α)
    (h : containsSubL b pat = true) : containsSubL (a ++ b) pat = true := by
  induction a with
  | nil => simpa
  | cons x xs ih =>
    rw [show (x :: xs) ++ b = x :: (xs ++ b) from rfl, containsSubL, Bool.or_eq_true]
    exact Or.inr ih

/-- Taking at most the left part of an append ignores the right part. -/
theorem take_append_left {α : Type} (l1 l2 : List α) (k : Nat)
    (h : k ≤ l1.length) : (l1 ++ l2).take k = l1.take k := by
  induction l1 generalizing k with
  | nil =>
    have : k = 0 := Nat.le_zero.mp h
    subst this; rfl
  | cons x xs ih =>
    cases k with
    | zero => rfl
    | succ n =>
      rw [show (x :: xs) ++ l2 = x :: (xs ++ l2) from rfl]
      simp only [List.take]
      rw [ih n (Nat.le_of_succ_le_succ h)]

/-- Byte count of an appended chunk sequence. -/
theorem sumLens_append (l : List (List Char)) (c : List Char) :
    sumLens (l ++ [c]) = sumLens l + c.length := by
  simp [sumLens]

/-- Concatenation of an appended chunk sequence. -/
theorem flatChunks_append (l : List (List Char)) (c : List Char) :
    flatChunks (l ++ [c]) = flatChunks l ++ c := by
  simp [flatChunks]

/-- Length of a concatenated chunk sequence. -/
theorem flatChunks_length (l : List (List Char)) :
    (flatChunks l).length = sumLens l := by
  simp [flatChunks, sumLens]

/-- Invariant of the output accumulator: the byte count is exact, and
the captured output is the concatenation of a size-bounded prefix of
the chunks — below the cap all of them, at or past the cap a frozen
prefix optionally followed by one truncation marker, and in the
frozen case the output always contains the text `Output truncated`
(which is what keeps the marker from ever being appended twice). -/
def CapInv (processed : List (List Char)) (st : List Char × Nat) : Prop :=
  st.2 = sumLens processed ∧
  ((st.2 < maxOutputSize ∧ st.1 = flatChunks processed) ∨
   (maxOutputSize ≤ st.2 ∧ ∃ k, k ≤ processed.length ∧
      sumLens (processed.take k) < maxOutputSize ∧
      (st.1 = flatChunks (processed.take k) ∨
       st.1 = flatChunks (processed.take k) ++ truncMarker) ∧
      containsSubL st.1 truncProbe = true))

/-- The marker itself contains the probe text. -/
theorem truncMarker_has_probe : containsSubL truncMarker truncProbe = true := by
  decide

/-- `handleData` preserves the capping invariant. -/
theorem capInv_step (processed : List (List Char)) (st : List Char × Nat)
    (c : List Char) (h : CapInv processed st) :
    CapInv (processed ++ [c]) (handleData st c) := by
  obtain ⟨hsz, hcase⟩ := h
  rw [handleData]
  rcases hcase with ⟨hlt, hout⟩ | ⟨hge, k, hk, hksz, hkout, hkprobe⟩
  · by_cases hnew : st.2 + c.length < maxOutputSize
    · rw [if_pos hnew]
      refine ⟨by rw [sumLens_append, hsz], Or.inl ⟨hnew, ?_⟩⟩
      rw [flatChunks_append, hout]
    · rw [if_neg hnew]
      have hge' : maxOutputSize ≤ st.2 + c.length := Nat.le_of_not_lt hnew
      by_cases hprobe : containsSubL st.1 truncProbe = true
      · rw [if_neg (by simp [hge', hprobe])]
        refine ⟨by rw [sumLens_append, hsz], Or.inr ⟨hge', processed.length, ?_, ?_, ?_, ?_⟩⟩
        · simp
        · rw [take_append_left _ _ _ (Nat.le_refl _), List.take_length, ← hsz]
          exact hlt
        · rw [take_append_left _ _ _ (Nat.le_refl _), List.take_length]
          exact Or.inl hout
        · exact hprobe
      · rw [if_pos (by simp [hge', hprobe])]
        refine ⟨by rw [sumLens_append, hsz], Or.inr ⟨hge', processed.length, ?_, ?_, ?_, ?_⟩⟩
        · simp
        · rw [take_append_left _ _ _ (Nat.le_refl _), List.take_length, ← hsz]
          exact hlt
        · rw [take_append_left _ _ _ (Nat.le_refl _), List.take_length]
          exact Or.inr (by rw [hout])
        · exact containsSubL_append_left _ _ _ truncMarker_has_probe
  · have hge' : maxOutputSize ≤ st.2 + c.length :=
      Nat.le_trans hge (Nat.le_add_right _ _)
    rw [if_neg (Nat.not_lt.mpr hge'), if_neg (by simp [hkprobe])]
    refine ⟨by rw [sumLens_append, hsz], Or.inr ⟨hge', k, ?_, ?_, ?_, hkprobe⟩⟩
    · exact Nat.le_trans hk (by simp)
    · rw [take_append_left _ _ _ hk]
      exact hksz
    · rw [take_append_left _ _ _ hk]
      exact hkout

/-- The capping invariant holds after folding any chunk sequence. -/
theorem capInv_fold (chunks : List (List Char)) :
    ∀ (processed : List (List Char)) (st : List Char × Nat),
      CapInv processed st →
      CapInv (processed ++ chunks) (chunks.foldl handleData st) := by
  induction chunks with
  | nil =>
    intro processed st h
    rw [List.foldl_nil, List.append_nil]
    exact h
  | cons c rest ih =>
    intro processed st h
    have h1 := capInv_step processed st c h
    have h2 := ih (processed ++ [c]) (handleData st c) h1
    rw [List.foldl_cons, show processed ++ c :: rest = (processed ++ [c]) ++ rest by simp]
    exact h2

/-- The accumulated output of a whole invocation satisfies the
invariant. -/
theorem capInv_accumulate (chunks : List (List Char)) :
    CapInv chunks (accumulateOutput chunks) := by
  have h0 : CapInv [] ([], 0) := by
    constructor
    · rfl
    · exact Or.inl ⟨by rw [maxOutputSize]; omega, rfl⟩
  have h := capInv_fold chunks [] ([], 0) h0
  rw [List.nil_append] at h
  exact h

/-- C5 counterexample: a process that first prints the 16 bytes
`Output truncated` and then a 1 MiB chunk exceeds the cap, yet the
captured output is exactly those 16 bytes — the truncation marker is
appended zero times, not exactly once, because the capture already
contains the probed-for text. -/
theorem c5_counterexample :
    maxOutputSize ≤
      (accumulateOutput [truncProbe, List.replicate maxOutputSize ('a')]).2 ∧
    (accumulateOutput [truncProbe, List.replicate maxOutputSize ('a')]).1 =
      truncProbe ∧
    containsSubL
      (accumulateOutput [truncProbe, List.replicate maxOutputSize ('a')]).1
      truncMarker = false := by
  have h2 : handleData ([], 0) truncProbe = (truncProbe, 16) := by decide
  have h3 : handleData (truncProbe, 16) (List.replicate maxOutputSize ('a')) =
      (truncProbe, 16 + maxOutputSize) := by
    rw [handleData, List.length_replicate]
    dsimp only
    rw [if_neg (by rw [maxOutputSize]; omega)]
    rw [if_neg (by rw [Bool.and_eq_true]; rintro ⟨-, hq⟩; revert hq; decide)]
  have hacc : accumulateOutput [truncProbe, List.replicate maxOutputSize ('a')] =
      (truncProbe, 16 + maxOutputSize) := by
    show List.foldl handleData ([], 0) _ = _
    rw [List.foldl, List.foldl, List.foldl, h2, h3]
  rw [hacc]
  refine ⟨by omega, rfl, by decide⟩

/-- C5 amended: the combined output buffer is always size-bounded by
the cap plus the marker text and its byte counter is exact; the
captured content is the concatenation of a prefix of the chunk
stream with the truncation marker appended at most once — once the
cap is reached further bytes are discarded — and a stream that stays
below the cap is captured in full.  The marker is appended when the
cap is reached unless the already-captured output contains the text
`Output truncated` (as the counterexample shows, in which case it is
not appended at all). -/
theorem c5_output_capping (chunks : List (List Char)) :
    (accumulateOutput chunks).2 = sumLens chunks ∧
    (accumulateOutput chunks).1.length < maxOutputSize + truncMarker.length ∧
    (∃ k, k ≤ chunks.length ∧
      ((accumulateOutput chunks).1 = flatChunks (chunks.take k) ∨
       (accumulateOutput chunks).1 = flatChunks (chunks.take k) ++ truncMarker)) ∧
    (sumLens chunks < maxOutputSize →
      (accumulateOutput chunks).1 = flatChunks chunks) := by
  obtain ⟨hsz, hcase⟩ := capInv_accumulate chunks
  have hmark : 0 < truncMarker.length := by decide
  rcases hcase with ⟨hlt, hout⟩ | ⟨hge, k, hk, hksz, hkout, -⟩
  · refine ⟨hsz, ?_, ⟨chunks.length, Nat.le_refl _, ?_⟩, fun _ => hout⟩
    · rw [hout, flatChunks_length, ← hsz]
      omega
    · rw [List.take_length]
      exact Or.inl hout
  · refine ⟨hsz, ?_, ⟨k, hk, hkout⟩, ?_⟩
    · rcases hkout with hkout | hkout
      · rw [hkout, flatChunks_length]
        omega
      · rw [hkout, List.length_append, flatChunks_length]
        omega
    · intro hunder
      rw [← hsz] at hunder
      omega

/-- C5 witness: a two-chunk stream well under the cap is captured in
full with an exact byte count. -/
theorem c5_output_capping_witness :
    (accumulateOutput [("ab").data, ("cd").data]).2 = 4 ∧
    (accumulateOutput [("ab").data, ("cd").data]).1 = ("abcd").data := by
  have h := c5_output_capping [("ab").data, ("cd").data]
  constructor
  · rw [h.1]; decide
  · rw [h.2.2.2 (by decide)]; decide

/-! ## C6: spawn failure, timeout and timer disarm -/

/-- A resolution survives `promiseResolve` (first resolution wins). -/
theorem promiseResolve_keeps (st : CmdState) (r : Bool × List Char)
    (h : st.resolved.isSome = true) : promiseResolve st r = st := by
  rw [promiseResolve, if_pos h]

/-- `promiseResolve` always leaves the promise resolved. -/
theorem promiseResolve_isSome (st : CmdState) (r : Bool × List Char) :
    ((promiseResolve st r).resolved).isSome = true := by
  rw [promiseResolve]
  split
  · assumption
  · rfl

/-- No handler ever changes an already-resolved promise value. -/
theorem stepCmd_keeps_resolved (cmd : String) (st : CmdState) (e : CmdEvent)
    (h : st.resolved.isSome = true) :
    ((stepCmd cmd st e).resolved) = st.resolved := by
  cases e with
  | errorEvent code message =>
    rw [stepCmd]
    split <;> rw [promiseResolve_keeps _ _ h]
  | dataEvent chunk => rfl
  | closeEvent code => rw [stepCmd, promiseResolve_keeps _ _ h]
  | exitEvent => rfl
  | timerFire =>
    rw [stepCmd]
    split
    · dsimp only
      rw [promiseResolve_keeps _ _ (by exact h)]
    · rfl

/-- No event sequence changes an already-resolved promise value. -/
theorem foldSteps_keeps_resolved (cmd : String) (events : List CmdEvent) :
    ∀ st : CmdState, st.resolved.isSome = true →
      (events.foldl (stepCmd cmd) st).resolved = st.resolved := by
  induction events with
  | nil => intro st _; rfl
  | cons e rest ih =>
    intro st h
    rw [List.foldl_cons, ih (stepCmd cmd st e) (by rw [stepCmd_keeps_resolved cmd st e h]; exact h),
      stepCmd_keeps_resolved cmd st e h]

/-- Events on which the installed handlers call `resolve`
unconditionally: a spawn `error` or the process `close`. -/
def isResolverEvent : CmdEvent → Bool
  | .errorEvent _ _ => true
  | .dataEvent _ => false
  | .closeEvent _ => true
  | .exitEvent => false
  | .timerFire => false

/-- A resolver event leaves the promise resolved. -/
theorem stepCmd_resolver (cmd : String) (st : CmdState) (e : CmdEvent)
    (h : isResolverEvent e = true) :
    ((stepCmd cmd st e).resolved).isSome = true := by
  cases e with
  | errorEvent code message =>
    rw [stepCmd]
    split <;> exact promiseResolve_isSome _ _
  | closeEvent code => exact promiseResolve_isSome _ _
  | dataEvent chunk => exact absurd h Bool.false_ne_true
  | exitEvent => exact absurd h Bool.false_ne_true
  | timerFire => exact absurd h Bool.false_ne_true

/-- Any trace containing a resolver event ends resolved, from any
start state. -/
theorem foldSteps_resolver (cmd : String) (events : List CmdEvent) :
    ∀ st : CmdState, (∃ e ∈ events, isResolverEvent e = true) →
      ((events.foldl (stepCmd cmd) st).resolved).isSome = true := by
  induction events with
  | nil => rintro st ⟨e, he, -⟩; exact absurd he (by simp)
  | cons x rest ih =>
    rintro st ⟨e, he, hres⟩
    rw [List.foldl_cons]
    rcases List.mem_cons.mp he with rfl | he'
    · have h1 := stepCmd_resolver cmd st e hres
      rw [foldSteps_keeps_resolved cmd rest _ h1]
      exact h1
    · exact ih (stepCmd cmd st x) ⟨e, he', hres⟩

/-- C6: the harness always settles to a `{success, output}` result and
never re-raises — (1) any trace containing a spawn-error or close
event ends with the promise resolved; (2) a spawn failure with code
`ENOENT` resolves to `success=false` with the descriptive
command-not-found message whatever happens afterwards; (3) if the
5-minute timer fires while the promise is unresolved and the timer
armed, the child is sent the graceful `SIGTERM` and the promise
resolves to `success=false` with the captured output plus the
`[Process killed due to timeout]` marker; (4) a natural process exit
disarms the timer, after which a timer firing is a no-op. -/
theorem c6_harness_resolution (cmd : String) :
    (∀ events : List CmdEvent, (∃ e ∈ events, isResolverEvent e = true) →
      ((runCmdTrace cmd events).resolved).isSome = true) ∧
    (∀ msg rest, (runCmdTrace cmd (CmdEvent.errorEvent ("ENOENT") msg :: rest)).resolved =
      some (false, ("Error: Command '" ++ cmd ++ "' not found. " ++ msg).data)) ∧
    (∀ pre, (runCmdTrace cmd pre).resolved = none →
      (runCmdTrace cmd pre).timerArmed = true →
      (runCmdTrace cmd (pre ++ [CmdEvent.timerFire])).resolved =
        some (false, (runCmdTrace cmd pre).output ++ timeoutMarker) ∧
      (runCmdTrace cmd (pre ++ [CmdEvent.timerFire])).killSignal = some ("SIGTERM")) ∧
    (∀ pre, (runCmdTrace cmd (pre ++ [CmdEvent.exitEvent])).timerArmed = false ∧
      runCmdTrace cmd (pre ++ [CmdEvent.exitEvent, CmdEvent.timerFire]) =
        runCmdTrace cmd (pre ++ [CmdEvent.exitEvent])) := by
  refine ⟨?_, ?_, ?_, ?_⟩
  · intro events h
    exact foldSteps_resolver cmd events initCmdState h
  · intro msg rest
    show (rest.foldl (stepCmd cmd)
      (stepCmd cmd initCmdState (CmdEvent.errorEvent ("ENOENT") msg))).resolved = _
    have h1 : stepCmd cmd initCmdState (CmdEvent.errorEvent ("ENOENT") msg) =
        { initCmdState with resolved := (some
          (false, ("Error: Command '" ++ cmd ++ "' not found. " ++ msg).data)) } := by
      rw [stepCmd, if_pos rfl, promiseResolve, if_neg (by simp [initCmdState])]
    rw [foldSteps_keeps_resolved cmd rest _ (by rw [h1]; rfl), h1]
  · intro pre hnone harm
    have hstep : runCmdTrace cmd (pre ++ [CmdEvent.timerFire]) =
        stepCmd cmd (runCmdTrace cmd pre) CmdEvent.timerFire := by
      rw [runCmdTrace, List.foldl_append, List.foldl_cons, List.foldl_nil]
      rfl
    rw [hstep, stepCmd, if_pos harm, promiseResolve, if_neg (by rw [hnone]; simp)]
    exact ⟨rfl, rfl⟩
  · intro pre
    have hstep : runCmdTrace cmd (pre ++ [CmdEvent.exitEvent]) =
        stepCmd cmd (runCmdTrace cmd pre) CmdEvent.exitEvent := by
      rw [runCmdTrace, List.foldl_append, List.foldl_cons, List.foldl_nil]
      rfl
    have hdis : (runCmdTrace cmd (pre ++ [CmdEvent.exitEvent])).timerArmed = false := by
      rw [hstep]; rfl
    refine ⟨hdis, ?_⟩
    have hstep2 : runCmdTrace cmd (pre ++ [CmdEvent.exitEvent, CmdEvent.timerFire]) =
        stepCmd cmd (runCmdTrace cmd (pre ++ [CmdEvent.exitEvent])) CmdEvent.timerFire := by
      rw [show pre ++ [CmdEvent.exitEvent, CmdEvent.timerFire] =
          (pre ++ [CmdEvent.exitEvent]) ++ [CmdEvent.timerFire] by simp,
        runCmdTrace, runCmdTrace, List.foldl_append, List.foldl_cons, List.foldl_nil]
    rw [hstep2, stepCmd, if_neg (by rw [hdis]; simp)]

/-- C6 witness: a concrete `ENOENT` spawn failure resolves with the
not-found message; a concrete silent run of 2 bytes killed by the
timer resolves with the timeout marker and a `SIGTERM`; a concrete
exited run has a disarmed timer and ignores a late timer firing. -/
theorem c6_harness_resolution_witness :
    ((runCmdTrace ("npm") [CmdEvent.errorEvent ("ENOENT") ("spawn npm ENOENT")]).resolved).isSome
        = true ∧
    (runCmdTrace ("npm") (CmdEvent.errorEvent ("ENOENT") ("spawn npm ENOENT") :: [])).resolved =
      some (false, ("Error: Command '" ++ "npm" ++ "' not found. " ++ "spawn npm ENOENT").data) ∧
    ((runCmdTrace ("npm") ([CmdEvent.dataEvent (("hi").data)] ++ [CmdEvent.timerFire])).resolved =
      some (false, (runCmdTrace ("npm") [CmdEvent.dataEvent (("hi").data)]).output ++
        timeoutMarker) ∧
      (runCmdTrace ("npm") ([CmdEvent.dataEvent (("hi").data)] ++ [CmdEvent.timerFire])).killSignal
        = some ("SIGTERM")) ∧
    ((runCmdTrace ("npm") ([CmdEvent.closeEvent (some 0), CmdEvent.exitEvent] ++
        [CmdEvent.exitEvent])).timerArmed = false ∧
      runCmdTrace ("npm") ([CmdEvent.closeEvent (some 0), CmdEvent.exitEvent] ++
        [CmdEvent.exitEvent, CmdEvent.timerFire]) =
        runCmdTrace ("npm") ([CmdEvent.closeEvent (some 0), CmdEvent.exitEvent] ++
          [CmdEvent.exitEvent])) := by
  refine ⟨?_, ?_, ?_, ?_⟩
  · exact (c6_harness_resolution ("npm")).1
      [CmdEvent.errorEvent ("ENOENT") ("spawn npm ENOENT")]
      ⟨CmdEvent.errorEvent ("ENOENT") ("spawn npm ENOENT"), by decide, by decide⟩
  · exact (c6_harness_resolution ("npm")).2.1 ("spawn npm ENOENT") []
  · exact (c6_harness_resolution ("npm")).2.2.1 [CmdEvent.dataEvent (("hi").data)]
      (by decide) (by decide)
  · exact (c6_harness_resolution ("npm")).2.2.2
      [CmdEvent.closeEvent (some 0), CmdEvent.exitEvent]

end PluginCreation
